import Mathlib

/-!
Verification of the Intern bootstrap / loader-swap pipeline
(`src/src/lib/declarations.ts` — the `PreExecutor` class and
`sendErrorToConduit`) and of the argument parser
(`src/unnamed/part_001` — `parseArguments`, `fromCommandLine`,
`fromQueryString`).

The JavaScript/TypeScript source is embedded shallowly: JS strings are
Lean `String`s (manipulated through `List Char` helpers whose semantics
mirror the handful of JS string operations the source uses), JS objects
whose shapes matter are Lean structures, `null`/`undefined` is `Option`,
thrown errors are `Except`, and the stateful parts (the process
listener list, the Node module cache and loader globals, the conduit
sequence counter, the browser/console side effects of `_handleError`)
are explicit state records threaded through the functions.
-/

namespace Intern

/-- The two host environments distinguished by `has('host-node')` /
`has('host-browser')` in the source. -/
inductive Host where
  | node
  | browser
  deriving DecidableEq, Repr

/-! ## JS string helpers

Small executable models of the JavaScript string operations used by the
source (`split`, `startsWith`-style prefix checks, regex scans are
modelled per call site further below). -/

/-- Does the character list start with the given prefix list? -/
def listIsPrefixOf : List Char → List Char → Bool
  | [], _ => true
  | _ :: _, [] => false
  | p :: ps, c :: cs => p = c && listIsPrefixOf ps cs

/-- JS `str.split(sep)` for a single-character separator: always returns
at least one (possibly empty) piece, e.g. `"".split('=') = [""]` and
`"a=".split('=') = ["a", ""]`. -/
def splitOnChar (sep : Char) : List Char → List (List Char)
  | [] => [[]]
  | c :: rest =>
    let r := splitOnChar sep rest
    if c = sep then [] :: r
    else
      match r with
      | h :: t => (c :: h) :: t
      | [] => [[c]]

/-! ## Argument parser (`src/unnamed/part_001`, `parseArguments`) -/

/-- A JavaScript value as stored into (or read out of) the
parsed-arguments object.  `json` wraps the raw text handed to
`JSON.parse` (the parse result is kept abstract: none of the verified
properties inspect it, and the model treats parsing as total);
`inherited name` is the value an empty object literal inherits from
`Object.prototype` under `name` (a host function, kept abstract). -/
inductive JSVal where
  | bool : Bool → JSVal
  | str : String → JSVal
  | json : String → JSVal
  | arr : List JSVal → JSVal
  | inherited : String → JSVal

/-- `parts[0].replace(/^--?/, '')`: strips one or two leading dashes
(two when present, else one, else nothing). -/
def stripDashes (s : String) : String :=
  match s.toList with
  | '-' :: '-' :: rest => String.mk rest
  | '-' :: rest => String.mk rest
  | _ => s

/-- The left-brace character (written by code point to keep braces out
of string literals). -/
def leftBrace : Char := Char.ofNat 123

/-- The key of one raw argument token: the part before the first `=`,
with a leading `-`/`--` removed (source line `const key =
parts[0].replace(/^--?/, '')`). -/
def tokenKey (arg : String) : String :=
  stripDashes (String.mk ((splitOnChar '=' arg.toList).headD []))

/-- Classification of a decoded value string (parser lines 34–41): a
leading left brace (`value.charAt(0)`) selects `JSON.parse`, a leading
backslash-escaped left brace (`value.slice(0, 2)`) is unescaped by
dropping the backslash, and anything else is kept as a plain string. -/
def decodedVal (v : String) : JSVal :=
  if v.toList.headD ' ' = leftBrace then JSVal.json v
  else if listIsPrefixOf ['\\', leftBrace] v.toList then
    JSVal.str (String.mk (v.toList.drop 1))
  else JSVal.str v

/-- The value of one raw argument token, mirroring lines 27–41 of the
parser: a token with no `=` is the boolean flag `true`; otherwise the
text after the first `=` is decoded and classified by `decodedVal`.
(JS `split('=')` produces more pieces when the value itself contains
`=`; the source reads only `parts[1]`, and so does this model.) -/
def tokenVal (decode : String → String) (arg : String) : JSVal :=
  if (splitOnChar '=' arg.toList).length < 2 then JSVal.bool true
  else decodedVal (decode (String.mk ((splitOnChar '=' arg.toList).getD 1 [])))

/-- The property names every JS object literal inherits from
`Object.prototype`.  All of them are visible to the `in` operator on
`\x7b\x7d`; none of them is enumerable, so `for...in` never yields
them. -/
def objectPrototypeKeys : List String :=
  ["constructor", "toString", "toLocaleString", "valueOf", "hasOwnProperty",
    "isPrototypeOf", "propertyIsEnumerable", "__defineGetter__",
    "__defineSetter__", "__lookupGetter__", "__lookupSetter__", "__proto__"]

/-- JS `key in args` for the object-literal accumulator: true for an own
key and also for every name inherited from `Object.prototype`. -/
def jsInArgs (m : String → Option JSVal) (k : String) : Bool :=
  (m k).isSome || objectPrototypeKeys.contains k

/-- JS property read `args[key]`: the own value when present, else the
value inherited from `Object.prototype`. -/
def jsGetArgs (m : String → Option JSVal) (k : String) : JSVal :=
  (m k).getD (JSVal.inherited k)

/-- One step of the accumulation loop (lines 43–53): when `key in args`
holds — for an own key, or for a name inherited from
`Object.prototype` — the current value (own or inherited) is boxed into
a one-element array unless it already is an array, and the new value is
pushed; otherwise the value is assigned under a fresh own key.
Boundary: assignment is modelled as an own-property write for every
key; for the lone accessor `__proto__` real JS would instead rewrite
the object's prototype, so no property below is stated about that one
key. -/
def insertArg (m : String → Option JSVal) (key : String) (v : JSVal) :
    String → Option JSVal :=
  fun k =>
    if k = key then
      if jsInArgs m key then
        match jsGetArgs m key with
        | JSVal.arr xs => some (JSVal.arr (xs ++ [v]))
        | w => some (JSVal.arr [w, v])
      else some v
    else m k

/-- `parseArguments(rawArgs, decode)`: folds the tokens into a key/value
object, modelled as a lookup function. -/
def parseArguments (decode : String → String) (rawArgs : List String) :
    String → Option JSVal :=
  rawArgs.foldl (fun m arg => insertArg m (tokenKey arg) (tokenVal decode arg))
    (fun _ => none)

/-- `fromCommandLine`: command-line tokens are not decoded
(`decode = identity`). -/
def fromCommandLine (rawArgs : List String) : String → Option JSVal :=
  parseArguments (fun s => s) rawArgs

/-- A compiled JS `RegExp`: its pattern source and its flags. -/
structure JSRegExp where
  pattern : String
  flags : String
  deriving DecidableEq, Repr

/-- The runtime type of the `excludeInstrumentation` argument before and
after normalization: a string, a boolean, a compiled RegExp, a number,
or absent (`undefined`). -/
inductive ArgVal where
  | str (s : String)
  | bool (b : Bool)
  | re (r : JSRegExp)
  | num (n : Nat)
  | absent
  deriving DecidableEq, Repr

/-- Lines 110–115 of `declarations.ts`: the exact string `"true"`
becomes the boolean `true`; any other string is compiled with
`new RegExp(value)` (default, empty flags); everything that is not a
string passes through unchanged. -/
def normalizeExcludeInstrumentation : ArgVal → ArgVal
  | ArgVal.str s => if s = "true" then ArgVal.bool true else ArgVal.re ⟨s, ""⟩
  | v => v

/-- C10: `excludeInstrumentation` normalization in
`PreExecutor.getArguments`: the string `"true"` becomes boolean `true`,
any other string becomes a RegExp compiled from that string, and
non-string values (booleans, already-compiled patterns, numbers,
absence) pass through unchanged. -/
theorem getArguments_excludeInstrumentation :
    normalizeExcludeInstrumentation (ArgVal.str "true") = ArgVal.bool true ∧
    (∀ s, s ≠ "true" →
      normalizeExcludeInstrumentation (ArgVal.str s) = ArgVal.re ⟨s, ""⟩) ∧
    (∀ b, normalizeExcludeInstrumentation (ArgVal.bool b) = ArgVal.bool b) ∧
    (∀ r, normalizeExcludeInstrumentation (ArgVal.re r) = ArgVal.re r) ∧
    (∀ n, normalizeExcludeInstrumentation (ArgVal.num n) = ArgVal.num n) ∧
    normalizeExcludeInstrumentation ArgVal.absent = ArgVal.absent := by
  refine ⟨rfl, ?_, fun b => rfl, fun r => rfl, fun n => rfl, rfl⟩
  intro s hs
  simp [normalizeExcludeInstrumentation, hs]

/-- C10 witness: concrete instances — the string `"false"` becomes the
pattern `false`, and the boolean `false` is untouched. -/
theorem getArguments_excludeInstrumentation_witness :
    normalizeExcludeInstrumentation (ArgVal.str "false") = ArgVal.re ⟨"false", ""⟩ ∧
    normalizeExcludeInstrumentation (ArgVal.bool false) = ArgVal.bool false := by
  exact ⟨getArguments_excludeInstrumentation.2.1 "false" (by decide),
    getArguments_excludeInstrumentation.2.2.1 false⟩

/-! ## `PreExecutor.getConfig` grep compilation
(`declarations.ts` lines 225–237) -/

/-- Is the character one of the regex flags accepted by the grep literal
form (`[gim]`)? -/
def isGimChar (c : Char) : Bool :=
  c = 'g' || c = 'i' || c = 'm'

/-- A JS line terminator — a character the JS `.` does not match: line
feed, carriage return, line separator (U+2028), paragraph separator
(U+2029). -/
def isLineTerminator (c : Char) : Bool :=
  c = Char.ofNat 10 || c = Char.ofNat 13 || c = Char.ofNat 8232
    || c = Char.ofNat 8233

/-- The match of `/^\/(.*)\/([gim]*)$/` against a string: the string
must start with `/` and contain a later `/` after which every character
is one of `g`, `i`, `m`, and the segment strictly between the opening
`/` and that last `/` must contain no line terminator (JS `.` does not
match one; the flags segment, being all `[gim]`, cannot contain one
either).  That segment is the pattern; everything after the last `/`
is the flags.  (Because `[gim]*` cannot contain `/`, the greedy `(.*)`
can only end at the last `/` of the string, so splitting there is
exactly the regex's behaviour.) -/
def grepLiteral (s : String) : Option (String × String) :=
  match s.toList with
  | '/' :: rest =>
    let flagsRev := rest.reverse.takeWhile (fun c => c ≠ '/')
    if flagsRev.length = rest.length then none
    else if flagsRev.all isGimChar
        && (rest.take (rest.length - flagsRev.length - 1)).all
          (fun c => !isLineTerminator c) then
      some (String.mk (rest.take (rest.length - flagsRev.length - 1)),
        String.mk flagsRev.reverse)
    else none
  | _ => none

/-- Lines 225–237 of `declarations.ts`: a `null`/`undefined` grep
compiles to `new RegExp('')`; a string of the literal form
`/pattern/flags` compiles to `new RegExp(pattern, flags)`; any other
string compiles to `new RegExp(string, 'i')`. -/
def compileGrep : Option String → JSRegExp
  | none => ⟨"", ""⟩
  | some s =>
    match grepLiteral s with
    | some (p, f) => ⟨p, f⟩
    | none => ⟨s, "i"⟩

/-- A JS regular expression whose pattern is empty matches every input
string (the empty pattern matches the empty substring at position 0 of
any input, regardless of flags); we use this as the formal reading of
"a pattern matching every input string". -/
def matchesEveryString (r : JSRegExp) : Prop :=
  r.pattern = ""

/-- C9: grep compilation in `PreExecutor.getConfig`: unset grep and the
empty string both compile to an empty pattern (matching every input
string; unset gets no flags, the empty string gets the default `i`); a
`/pattern/flags` literal yields exactly that pattern and those flags;
any other string yields a case-insensitive pattern built from the whole
string. -/
theorem getConfig_grep_compilation :
    (compileGrep none = ⟨"", ""⟩ ∧ matchesEveryString (compileGrep none)) ∧
    (compileGrep (some "") = ⟨"", "i"⟩ ∧
      matchesEveryString (compileGrep (some ""))) ∧
    (∀ s p f, grepLiteral s = some (p, f) → compileGrep (some s) = ⟨p, f⟩) ∧
    (∀ s, grepLiteral s = none → compileGrep (some s) = ⟨s, "i"⟩) := by
  refine ⟨⟨rfl, rfl⟩, ⟨rfl, rfl⟩, ?_, ?_⟩
  · intro s p f h
    simp [compileGrep, h]
  · intro s h
    simp [compileGrep, h]

/-- C9 witness: `"/foo/i"` is the literal form with pattern `foo` and
flag `i`; `"foo"` is not, and compiles case-insensitively. -/
theorem getConfig_grep_compilation_witness :
    compileGrep (some "/foo/i") = ⟨"foo", "i"⟩ ∧
    compileGrep (some "foo") = ⟨"foo", "i"⟩ := by
  exact ⟨getConfig_grep_compilation.2.2.1 "/foo/i" "foo" "i" rfl,
    getConfig_grep_compilation.2.2.2 "foo" rfl⟩

/-! ## `PreExecutor.getConfig` proxy settings
(`declarations.ts` lines 245–258) -/

/-- The value of `config.proxyPort` before normalization: a JS number or
a string (`none` at the call sites below stands for `null`/unset). -/
inductive PortInput where
  | num (n : Nat)
  | str (s : String)
  deriving DecidableEq, Repr

/-- The host's `isNaN`/`Number` coercion on the strings relevant here,
modelled on the integer-literal fragment: a string of decimal digits
parses to its value, the empty string coerces to `0` (JS
`Number('') = 0`), and any other string is `NaN` (`none`).  Signed,
fractional, hexadecimal and whitespace-padded forms are outside the
model. -/
def jsStringToNumber (s : String) : Option Nat :=
  match s.toList with
  | [] => some 0
  | cs =>
    if cs.all Char.isDigit then
      some (cs.foldl (fun acc c => acc * 10 + (c.toNat - '0'.toNat)) 0)
    else none

/-- Lines 245–258 of `declarations.ts`: a `null` `proxyPort` defaults to
`9000`; a string port is rejected with `Error('proxyPort must be a
number')` when `isNaN`, else converted with `Number`; a numeric port is
kept; finally a `null` `proxyUrl` is derived as
`'http://localhost:' + proxyPort + '/'` from the (already numeric)
port. -/
def resolveProxySettings (proxyPort : Option PortInput)
    (proxyUrl : Option String) : Except String (Nat × String) :=
  match proxyPort with
  | none =>
    Except.ok (9000, proxyUrl.getD ("http://localhost:" ++ toString 9000 ++ "/"))
  | some (PortInput.num n) =>
    Except.ok (n, proxyUrl.getD ("http://localhost:" ++ toString n ++ "/"))
  | some (PortInput.str s) =>
    match jsStringToNumber s with
    | none => Except.error "proxyPort must be a number"
    | some n =>
      Except.ok (n, proxyUrl.getD ("http://localhost:" ++ toString n ++ "/"))

/-- C8: proxy normalization in `PreExecutor.getConfig`: an unset
`proxyPort` becomes the number `9000`; a numeric string becomes the
corresponding number; a non-numeric string fails with the
invalid-port error; an unset `proxyUrl` is derived as
`http://localhost:` + port + `/` from the normalized port. -/
theorem getConfig_proxy_normalization (u : Option String) :
    (resolveProxySettings none u
      = Except.ok (9000, u.getD "http://localhost:9000/")) ∧
    (∀ s n, jsStringToNumber s = some n →
      resolveProxySettings (some (PortInput.str s)) u
        = Except.ok (n, u.getD ("http://localhost:" ++ toString n ++ "/"))) ∧
    (∀ s, jsStringToNumber s = none →
      resolveProxySettings (some (PortInput.str s)) u
        = Except.error "proxyPort must be a number") := by
  refine ⟨rfl, ?_, ?_⟩
  · intro s n h
    simp [resolveProxySettings, h]
  · intro s h
    simp [resolveProxySettings, h]

/-- C8 witness: unset port → `9000` with derived URL; `"9001"` → `9001`;
`"abc"` → the invalid-port error. -/
theorem getConfig_proxy_normalization_witness :
    resolveProxySettings none none
      = Except.ok (9000, "http://localhost:9000/") ∧
    resolveProxySettings (some (PortInput.str "9001")) none
      = Except.ok (9001, "http://localhost:9001/") ∧
    resolveProxySettings (some (PortInput.str "abc")) none
      = Except.error "proxyPort must be a number" := by
  refine ⟨(getConfig_proxy_normalization none).1, ?_, ?_⟩
  · exact (getConfig_proxy_normalization none).2.1 "9001" 9001 (by decide)
  · exact (getConfig_proxy_normalization none).2.2 "abc" (by decide)

/-! ## `PreExecutor.getConfig` loader baseUrl resolution
(`declarations.ts` lines 162–223) -/

/-- A JS `\w` word character (`[A-Za-z0-9_]`). -/
def isWordChar (c : Char) : Bool :=
  c.isAlphanum || c = '_'

/-- Does the character list begin with `/`? -/
def headIsSlash (cs : List Char) : Bool :=
  cs.head? == some '/'

/-- The browser host's absoluteness test (lines 204–207):
`/^(?:\w+:|\/\/\w)/` — a scheme (one or more word characters followed
by a colon) or a scheme-relative form (`//` followed by a word
character).  A colon can only terminate the regex's `\w+` at the end of
the maximal word-character prefix, so testing the character right after
that prefix is exactly the regex's behaviour. -/
def isAbsoluteBaseUrlBrowser (s : String) : Bool :=
  (decide (0 < (s.toList.takeWhile isWordChar).length)
      && s.toList.getD (s.toList.takeWhile isWordChar).length ' ' == ':')
    || (match s.toList with
        | '/' :: '/' :: c :: _ => isWordChar c
        | _ => false)

/-- The host-specific absoluteness test used on `loaderOptions.baseUrl`:
for a headless host `pathUtil.isAbsolute` (a leading separator, POSIX —
the fallback at lines 176–183 for `sep = '/'` is exactly this test);
for a browser host the scheme / scheme-relative test. -/
def isAbsoluteBaseUrl : Host → String → Bool
  | Host.node, s => headIsSlash s.toList
  | Host.browser, s => isAbsoluteBaseUrlBrowser s

/-- Modelled from the spec: `util.normalizePath` is code of this
repository that is not under `src/` (only its caller is).  The spec
(§4.1) describes the rewrite of a non-absolute loader baseUrl as
"rewritten as `basePath` + the relative value", so the normalization
applied on top of that concatenation is modelled as the identity. -/
def normalizePath (s : String) : String := s

/-- Lines 214–223 of `declarations.ts`: a falsy (`undefined`/empty)
`loaderOptions.baseUrl` is replaced by `config.basePath`; a
non-absolute one (per the host-specific test) is rewritten to
`normalizePath(basePath + baseUrl)`; an absolute one is kept. -/
def resolveLoaderBaseUrl (host : Host) (basePath : String)
    (baseUrl : Option String) : String :=
  match baseUrl with
  | none => basePath
  | some u =>
    if u = "" then basePath
    else if isAbsoluteBaseUrl host u then u
    else normalizePath (basePath ++ u)

/-- The claim's "equals `basePath` + the original value with exactly one
separator between them": the result is the plain concatenation, the
base path ends in a single separator, and the value does not begin with
one. -/
def exactlyOneSepJoin (bp v r : String) : Prop :=
  r = bp ++ v ∧
  bp.toList.getLast? = some '/' ∧
  bp.toList.dropLast.getLast? ≠ some '/' ∧
  v.toList.head? ≠ some '/'

/-- C3 counterexample: on a browser host the value `/foo` fails the
scheme / scheme-relative absoluteness test, so it is treated as
relative and prefixed with the base path as-is, yielding a double
separator at the junction — not "exactly one separator". -/
theorem loaderBaseUrl_double_separator :
    isAbsoluteBaseUrl Host.browser "/foo" = false ∧
    resolveLoaderBaseUrl Host.browser "/base/" (some "/foo") = "/base//foo" ∧
    ¬ exactlyOneSepJoin "/base/" "/foo"
      (resolveLoaderBaseUrl Host.browser "/base/" (some "/foo")) := by
  refine ⟨by decide, by decide, ?_⟩
  intro h
  exact absurd rfl h.2.2.2

/-- C3 (amended): for a base path ending in a single separator, an unset
or empty `loaderOptions.baseUrl` resolves to `basePath`; an absolute
one (host-specific test) is unchanged; a relative one resolves to
`basePath` + the original value, with exactly one separator at the
junction whenever the relative value does not itself begin with a
separator — which is always the case on a headless host, where a
leading separator means absolute, but can fail on a browser host. -/
theorem loaderBaseUrl_resolution_amended (host : Host) (bp u : String)
    (hbp₁ : bp.toList.getLast? = some '/')
    (hbp₂ : bp.toList.dropLast.getLast? ≠ some '/') :
    resolveLoaderBaseUrl host bp none = bp ∧
    resolveLoaderBaseUrl host bp (some "") = bp ∧
    (u ≠ "" → isAbsoluteBaseUrl host u = true →
      resolveLoaderBaseUrl host bp (some u) = u) ∧
    (u ≠ "" → isAbsoluteBaseUrl host u = false →
      resolveLoaderBaseUrl host bp (some u) = bp ++ u) ∧
    (u ≠ "" → isAbsoluteBaseUrl host u = false → u.toList.head? ≠ some '/' →
      exactlyOneSepJoin bp u (resolveLoaderBaseUrl host bp (some u))) ∧
    (isAbsoluteBaseUrl Host.node u = false → u.toList.head? ≠ some '/') := by
  refine ⟨rfl, by simp [resolveLoaderBaseUrl], ?_, ?_, ?_, ?_⟩
  · intro hu habs
    simp [resolveLoaderBaseUrl, hu, habs]
  · intro hu habs
    simp [resolveLoaderBaseUrl, normalizePath, hu, habs]
  · intro hu habs hv
    refine ⟨?_, hbp₁, hbp₂, hv⟩
    simp [resolveLoaderBaseUrl, normalizePath, hu, habs]
  · intro habs
    simpa [isAbsoluteBaseUrl, headIsSlash] using habs

/-- C3 amended witness: on a headless host with base path `/base/`, an
unset baseUrl yields `/base/`, the absolute `/abs/x` is unchanged, and
the relative `sub/y` is joined with exactly one separator. -/
theorem loaderBaseUrl_resolution_amended_witness :
    resolveLoaderBaseUrl Host.node "/base/" none = "/base/" ∧
    resolveLoaderBaseUrl Host.node "/base/" (some "/abs/x") = "/abs/x" ∧
    resolveLoaderBaseUrl Host.node "/base/" (some "sub/y") = "/base/" ++ "sub/y" ∧
    exactlyOneSepJoin "/base/" "sub/y"
      (resolveLoaderBaseUrl Host.node "/base/" (some "sub/y")) := by
  refine ⟨(loaderBaseUrl_resolution_amended Host.node "/base/" "" (by decide)
      (by decide)).1, ?_, ?_, ?_⟩
  · exact (loaderBaseUrl_resolution_amended Host.node "/base/" "/abs/x"
      (by decide) (by decide)).2.2.1 (by decide) (by decide)
  · exact (loaderBaseUrl_resolution_amended Host.node "/base/" "sub/y"
      (by decide) (by decide)).2.2.2.1 (by decide) (by decide)
  · exact (loaderBaseUrl_resolution_amended Host.node "/base/" "sub/y"
      (by decide) (by decide)).2.2.2.2.1 (by decide) (by decide) (by decide)

/-! ## `sendErrorToConduit` (`declarations.ts` lines 580–618) -/

/-- A JS `Error` object as it travels through the pipeline: its standard
fields plus the `reported` marker consulted by `PreExecutor.run`'s
failure path. -/
structure JsError where
  name : String
  message : String
  stack : String
  reported : Bool
  deriving DecidableEq, Repr

/-- The numeric value of one hex digit, as understood by the host's
percent-decoding. -/
def hexDigitVal (c : Char) : Option Nat :=
  if c.isDigit then some (c.toNat - '0'.toNat)
  else if 'a' ≤ c ∧ c ≤ 'f' then some (c.toNat - 'a'.toNat + 10)
  else if 'A' ≤ c ∧ c ≤ 'F' then some (c.toNat - 'A'.toNat + 10)
  else none

/-- The host's `decodeURIComponent` on the fragment relevant here:
well-formed single-byte `%XX` escapes are decoded, everything else
passes through.  (JS raises `URIError` on malformed escapes and decodes
multi-byte UTF-8 sequences; neither occurs in the verified
properties.) -/
def percentDecode : List Char → List Char
  | [] => []
  | '%' :: h₁ :: h₂ :: rest =>
    match hexDigitVal h₁, hexDigitVal h₂ with
    | some a, some b => Char.ofNat (a * 16 + b) :: percentDecode rest
    | _, _ => '%' :: percentDecode (h₁ :: h₂ :: rest)
  | c :: rest => c :: percentDecode rest

/-- The scan of `/[?&]sessionId=([^&]+)/` over `location.search`: the
first position holding `?` or `&` followed by `sessionId=` and at least
one non-`&` character yields the captured run of non-`&` characters;
positions where the capture would be empty fail and the scan
continues, as a regex engine's does. -/
def sessionIdCapture : List Char → Option (List Char)
  | [] => none
  | c :: rest =>
    if (c = '?' || c = '&') && listIsPrefixOf "sessionId=".toList rest then
      match (rest.drop 10).takeWhile (fun x => x ≠ '&') with
      | [] => sessionIdCapture rest
      | cap => some cap
    else sessionIdCapture rest

/-- The single element of the JSON array POSTed to the proxy root: the
object `JSON.stringify` serializes at lines 592–603 — `sequence`, the
decoded `sessionId`, and the `fatalError` payload carrying the error's
fields plus the non-standard `sessionId` property. -/
structure ConduitMessage where
  sequence : Nat
  sessionId : String
  payloadEvent : String
  errorName : String
  errorMessage : String
  errorStack : String
  payloadSessionId : String
  deriving DecidableEq, Repr

/-- Lines 580–618 of `declarations.ts`: `sendErrorToConduit` returns
immediately when `location.search` carries no `sessionId` query
parameter; otherwise it POSTs one array holding one serialized message
built from the module-level `sequence` counter and the decoded session
id, and only then increments the counter.  The function is modelled as
a transition on the counter returning the list of messages POSTed
(serialization is total in the model). -/
def sendErrorToConduit (seq : Nat) (search : String) (e : JsError) :
    List ConduitMessage × Nat :=
  match sessionIdCapture search.toList with
  | none => ([], seq)
  | some cap =>
    ([{ sequence := seq
        sessionId := String.mk (percentDecode cap)
        payloadEvent := "fatalError"
        errorName := e.name
        errorMessage := e.message
        errorStack := e.stack
        payloadSessionId := String.mk (percentDecode cap) }], seq + 1)

/-- C6: when `location.search` carries a `sessionId` parameter, each
fatal error posts exactly one array with a single message carrying the
current sequence number and that session id, and the counter advances
by one only when a message was produced (so the first error posts
sequence 0, the second sequence 1); with no `sessionId` parameter
nothing is posted and the counter is untouched. -/
theorem sendErrorToConduit_sequencing (search : String) (e : JsError)
    (seq : Nat) :
    (sessionIdCapture search.toList = none →
      sendErrorToConduit seq search e = ([], seq)) ∧
    (∀ cap, sessionIdCapture search.toList = some cap →
      sendErrorToConduit seq search e =
        ([{ sequence := seq
            sessionId := String.mk (percentDecode cap)
            payloadEvent := "fatalError"
            errorName := e.name
            errorMessage := e.message
            errorStack := e.stack
            payloadSessionId := String.mk (percentDecode cap) }], seq + 1)) ∧
    (sendErrorToConduit seq search e).2
      = seq + (sendErrorToConduit seq search e).1.length := by
  refine ⟨?_, ?_, ?_⟩
  · intro h
    unfold sendErrorToConduit
    rw [h]
  · intro cap h
    unfold sendErrorToConduit
    rw [h]
  · unfold sendErrorToConduit
    match sessionIdCapture search.toList with
    | none => rfl
    | some cap => rfl

/-- C6 witness: with `location.search = "?sessionId=abc123"`, the first
fatal error posts one message with sequence 0 and session id `abc123`
and the second posts sequence 1; with a search string lacking
`sessionId` nothing is posted. -/
theorem sendErrorToConduit_sequencing_witness :
    sendErrorToConduit 0 "?sessionId=abc123"
        { name := "Error", message := "m1", stack := "s1", reported := false }
      = ([{ sequence := 0, sessionId := "abc123", payloadEvent := "fatalError",
            errorName := "Error", errorMessage := "m1", errorStack := "s1",
            payloadSessionId := "abc123" }], 1) ∧
    sendErrorToConduit 1 "?sessionId=abc123"
        { name := "Error", message := "m2", stack := "s2", reported := false }
      = ([{ sequence := 1, sessionId := "abc123", payloadEvent := "fatalError",
            errorName := "Error", errorMessage := "m2", errorStack := "s2",
            payloadSessionId := "abc123" }], 2) ∧
    sendErrorToConduit 0 "?foo=bar"
        { name := "Error", message := "m1", stack := "s1", reported := false }
      = ([], 0) := by
  refine ⟨?_, ?_, ?_⟩
  · exact (sendErrorToConduit_sequencing "?sessionId=abc123"
      { name := "Error", message := "m1", stack := "s1", reported := false }
      0).2.1 "abc123".toList (by decide)
  · exact (sendErrorToConduit_sequencing "?sessionId=abc123"
      { name := "Error", message := "m2", stack := "s2", reported := false }
      1).2.1 "abc123".toList (by decide)
  · exact (sendErrorToConduit_sequencing "?foo=bar"
      { name := "Error", message := "m1", stack := "s1", reported := false }
      0).1 (by decide)

/-! ## `PreExecutor._handleError` and the failure path of
`PreExecutor.run` (`declarations.ts` lines 273–295 and 449–468) -/

/-- The ambient state observed and mutated by `_handleError`: the host,
whether `location.pathname` matches the remote-session marker (the
`slice(-10) === '/__intern/'` test at line 275), the page's query
string, the conduit sequence counter and log, and counters for the
user-visible side effects (rendered error panels, console messages, the
process exit status, and the number of `_handleError` invocations). -/
structure PreExecWorld where
  host : Host
  underInternPath : Bool
  locationSearch : String
  conduitSeq : Nat
  conduitLog : List ConduitMessage
  renderedErrors : Nat
  consoleErrors : Nat
  exitCode : Option Nat
  handlerCalls : Nat
  deriving DecidableEq, Repr

/-- Lines 273–295 of `declarations.ts`: on a browser host the error is
forwarded to the conduit when the pathname marks a remote session, and
an error panel is always rendered; on a headless host the error is
logged to the console and the process exits with status 1.  The error
object is returned unchanged: `_handleError` never writes the
`reported` marker. -/
def handleErrorPre (w : PreExecWorld) (e : JsError) : PreExecWorld × JsError :=
  match w.host with
  | Host.browser =>
    if w.underInternPath then
      ({ w with
          handlerCalls := w.handlerCalls + 1
          conduitSeq := (sendErrorToConduit w.conduitSeq w.locationSearch e).2
          conduitLog := w.conduitLog
            ++ (sendErrorToConduit w.conduitSeq w.locationSearch e).1
          renderedErrors := w.renderedErrors + 1 }, e)
    else
      ({ w with
          handlerCalls := w.handlerCalls + 1
          renderedErrors := w.renderedErrors + 1 }, e)
  | Host.node =>
    ({ w with
        handlerCalls := w.handlerCalls + 1
        consoleErrors := w.consoleErrors + 1
        exitCode := some 1 }, e)

/-- The `.catch` at lines 456–462 of `PreExecutor.run`: when the
rejecting error's `reported` marker is unset the early error handler
(`_handleError`) is invoked, and the same error object is rethrown. -/
def runCatchStep (w : PreExecWorld) (e : JsError) : PreExecWorld × JsError :=
  if e.reported then (w, e) else handleErrorPre w e

/-- A concrete browser-host world for exercising the failure path. -/
def catchWorld : PreExecWorld :=
  { host := Host.browser, underInternPath := false, locationSearch := ""
    conduitSeq := 0, conduitLog := [], renderedErrors := 0, consoleErrors := 0
    exitCode := none, handlerCalls := 0 }

/-- A concrete unmarked error. -/
def unreportedError : JsError :=
  { name := "Error", message := "boom", stack := "", reported := false }

/-- C1 counterexample: an unmarked error rejecting the pipeline does
invoke the handler, but the rethrown error's `reported` marker is still
unset — `_handleError` and the `.catch` never set it — so a second
independent rejection of the very same error object fires the handler
a second time. -/
theorem run_catch_marker_never_set :
    (runCatchStep catchWorld unreportedError).1.handlerCalls = 1 ∧
    (runCatchStep catchWorld unreportedError).2.reported = false ∧
    (runCatchStep (runCatchStep catchWorld unreportedError).1
        (runCatchStep catchWorld unreportedError).2).1.handlerCalls = 2 := by
  refine ⟨rfl, rfl, rfl⟩

/-- C1 (amended): per rejection reaching the `.catch` of
`PreExecutor.run`, an error whose `reported` marker is unset invokes
the bridge's handler exactly once, and an error whose marker is already
set (by the downstream executor, not by this path) does not invoke it
at all; the failure path itself leaves the marker unchanged, so the
same unmarked error object rejecting twice invokes the handler twice,
while a marked error never does. -/
theorem run_catch_amended (w : PreExecWorld) (e : JsError) :
    (e.reported = true → runCatchStep w e = (w, e)) ∧
    (e.reported = false →
      (runCatchStep w e).1.handlerCalls = w.handlerCalls + 1 ∧
      (runCatchStep w e).2 = e ∧
      (runCatchStep (runCatchStep w e).1 (runCatchStep w e).2).1.handlerCalls
        = w.handlerCalls + 2) := by
  constructor
  · intro h
    simp [runCatchStep, h]
  · intro h
    rcases w with ⟨host, uip, ls, cseq, clog, re, ce, ec, hc⟩
    cases host <;> cases uip <;>
      simp [runCatchStep, handleErrorPre, h]

/-- C1 amended witness: on the concrete browser world, a marked error
passes through untouched, and an unmarked one fires the handler once
per rejection. -/
theorem run_catch_amended_witness :
    runCatchStep catchWorld
        { name := "Error", message := "boom", stack := "", reported := true }
      = (catchWorld,
        { name := "Error", message := "boom", stack := "", reported := true }) ∧
    (runCatchStep catchWorld unreportedError).1.handlerCalls = 0 + 1 := by
  constructor
  · exact (run_catch_amended catchWorld
      { name := "Error", message := "boom", stack := "", reported := true }).1 rfl
  · exact ((run_catch_amended catchWorld unreportedError).2 rfl).1

/-! ## `PreExecutor.registerErrorHandler`
(`declarations.ts` lines 314–340, headless branch) -/

/-- Function identity for `uncaughtException` listeners:
`handlerFn id` is the user-supplied `handler` function, `wrapperFn id`
is the distinct anonymous closure `function (error) { handler(error); }`
created at line 330, which closes over that handler.
`process.removeListener` compares listeners by function reference, so
these are different listeners. -/
inductive JsListener where
  | handlerFn (id : Nat)
  | wrapperFn (id : Nat)
  deriving DecidableEq, Repr

/-- The headless host's `uncaughtException` listener list, in
registration order. -/
structure ProcessState where
  uncaughtException : List JsListener
  deriving DecidableEq, Repr

/-- `process.on('uncaughtException', l)`: appends the listener. -/
def processOn (st : ProcessState) (l : JsListener) : ProcessState :=
  ⟨st.uncaughtException ++ [l]⟩

/-- Removes the first occurrence in the given list. -/
def removeFirst (l : JsListener) : List JsListener → List JsListener
  | [] => []
  | x :: xs => if x = l then xs else x :: removeFirst l xs

/-- `process.removeListener('uncaughtException', l)`: removes at most
one matching listener, the most recently registered one (a no-op when
none matches). -/
def processRemoveListener (st : ProcessState) (l : JsListener) : ProcessState :=
  ⟨(removeFirst l st.uncaughtException.reverse).reverse⟩

/-- The removable handle returned for a headless host (lines 333–338):
it remembers which handler it was built for, and disables itself after
its first use (`this.remove = function () {};`). -/
structure NodeHandle where
  handlerId : Nat
  disabled : Bool
  deriving DecidableEq, Repr

/-- Invoking the handle's `remove`: once only, it calls
`process.removeListener('uncaughtException', handler)` — with the
`handler` function, not with the wrapper that was actually
registered. -/
def handleRemove (st : ProcessState) (h : NodeHandle) :
    ProcessState × NodeHandle :=
  if h.disabled then (st, h)
  else (processRemoveListener st (JsListener.handlerFn h.handlerId),
    { h with disabled := true })

/-- Lines 314–340 for a headless host: a previously stored handle is
removed first (lines 315–318), then the anonymous wrapper around the
new handler is registered on the `uncaughtException` channel and a
fresh handle is returned. -/
def registerErrorHandlerNode (prev : Option NodeHandle) (st : ProcessState)
    (id : Nat) : ProcessState × NodeHandle :=
  match prev with
  | some h =>
    (processOn (handleRemove st h).1 (JsListener.wrapperFn id),
      { handlerId := id, disabled := false })
  | none =>
    (processOn st (JsListener.wrapperFn id),
      { handlerId := id, disabled := false })

/-- C2: evaluating the headless registration at the failing input.
Registering handler 1 on a fresh process and then invoking the returned
handle's `remove` leaves the installed wrapper attached (the removal
targets the `handler` reference, which was never registered), and
re-registering handler 2 afterwards leaves two active listeners instead
of exactly one. -/
theorem registerErrorHandler_remove_bug :
    (handleRemove (registerErrorHandlerNode none ⟨[]⟩ 1).1
        (registerErrorHandlerNode none ⟨[]⟩ 1).2).1.uncaughtException
      = [JsListener.wrapperFn 1] ∧
    (registerErrorHandlerNode (some (registerErrorHandlerNode none ⟨[]⟩ 1).2)
        (registerErrorHandlerNode none ⟨[]⟩ 1).1 2).1.uncaughtException
      = [JsListener.wrapperFn 1, JsListener.wrapperFn 2] := by
  decide

/-! ## `PreExecutor.swapLoader` (`declarations.ts` lines 478–568) -/

/-- A JS value sitting in a loader-related slot: a function (with an
identity), a non-function object, or `undefined`. -/
inductive LoaderVal where
  | fn (id : Nat)
  | obj (id : Nat)
  | undef
  deriving DecidableEq, Repr

/-- The headless host's module-loading state: `require.cache` (keyed by
resolved path), the global `require` and `define` registration slots,
and the list of modules whose code has been executed, in order (the
observable side effects of a load). -/
structure NodeLoaderState where
  cache : List String
  globalRequire : LoaderVal
  globalDefine : LoaderVal
  executed : List String
  deriving DecidableEq, Repr

/-- The host facilities `swapLoader` calls into: `require.resolve`,
the `module._findPath` search rooted at `basePath` (`none` when it
returns `false`), each module's export value, and the pair of global
`require`/`define` values a module's execution leaves behind (starting
from the cleared slots). -/
structure NodeModuleSystem where
  resolve : String → String
  findPath : String → Option String
  exportsOf : String → LoaderVal
  globalsAfter : String → LoaderVal × LoaderVal

/-- Lines 482–521 of `declarations.ts` (the headless branch of the
`swapLoader` promise executor), given a `loaders['host-node']`
reference (`none` models the else-branch at line 543: no reference, the
already-active loader resolves).  A reference whose resolved path is
already in `require.cache` resolves immediately with the active global
loader, touching nothing.  Otherwise the global slots are cleared, the
identifier is optionally rewritten via `_findPath`, the module is
executed (entering the cache and leaving whatever globals it sets), and
the export is used when it is a function, else the now-global loader;
a still-empty global `require` slot is backfilled with the result. -/
def swapLoaderNodeResolve (sys : NodeModuleSystem) (st : NodeLoaderState)
    (loaderRef : Option String) : NodeLoaderState × LoaderVal :=
  match loaderRef with
  | none => (st, st.globalRequire)
  | some ref =>
    if sys.resolve ref ∈ st.cache then (st, st.globalRequire)
    else
      let id := (sys.findPath ref).getD ref
      let st₁ : NodeLoaderState :=
        { cache := st.cache ++ [sys.resolve id]
          globalRequire := (sys.globalsAfter id).1
          globalDefine := (sys.globalsAfter id).2
          executed := st.executed ++ [id] }
      let amdRequire :=
        match sys.exportsOf id with
        | LoaderVal.fn n => LoaderVal.fn n
        | _ => st₁.globalRequire
      if st₁.globalRequire = LoaderVal.undef then
        ({ st₁ with globalRequire := amdRequire }, amdRequire)
      else (st₁, amdRequire)

/-- C5: a headless `host-node` loader reference whose resolved module is
already in `require.cache` resolves with the already-active global
loader and changes nothing: the cached module is not re-executed, the
global registration slots keep their values, and running the same swap
again from the resulting state gives the identical result. -/
theorem swapLoader_cached_idempotent (sys : NodeModuleSystem)
    (st : NodeLoaderState) (ref : String)
    (h : sys.resolve ref ∈ st.cache) :
    swapLoaderNodeResolve sys st (some ref) = (st, st.globalRequire) ∧
    (swapLoaderNodeResolve sys st (some ref)).1.executed = st.executed ∧
    (swapLoaderNodeResolve sys st (some ref)).1.globalRequire
      = st.globalRequire ∧
    (swapLoaderNodeResolve sys st (some ref)).1.globalDefine
      = st.globalDefine ∧
    swapLoaderNodeResolve sys (swapLoaderNodeResolve sys st (some ref)).1
        (some ref)
      = (st, st.globalRequire) := by
  have h₁ : swapLoaderNodeResolve sys st (some ref) = (st, st.globalRequire) := by
    unfold swapLoaderNodeResolve
    dsimp only
    rw [if_pos h]
  refine ⟨h₁, by rw [h₁], by rw [h₁], by rw [h₁], by rw [h₁]; exact h₁⟩

/-- A concrete module system for the C5 witness: identity resolution, no
local-path rewrite, inert modules. -/
def plainModuleSystem : NodeModuleSystem :=
  { resolve := fun s => s
    findPath := fun _ => none
    exportsOf := fun _ => LoaderVal.undef
    globalsAfter := fun _ => (LoaderVal.undef, LoaderVal.undef) }

/-- A concrete loader state whose cache already holds the loader
module. -/
def cachedLoaderState : NodeLoaderState :=
  { cache := ["node_modules/dojo/dojo.js"]
    globalRequire := LoaderVal.fn 7
    globalDefine := LoaderVal.fn 8
    executed := ["node_modules/dojo/dojo.js"] }

/-- C5 witness: swapping to the already-cached loader returns the active
loader unchanged, and doing it twice is the same as doing it once. -/
theorem swapLoader_cached_idempotent_witness :
    swapLoaderNodeResolve plainModuleSystem cachedLoaderState
        (some "node_modules/dojo/dojo.js")
      = (cachedLoaderState, LoaderVal.fn 7) ∧
    swapLoaderNodeResolve plainModuleSystem
        (swapLoaderNodeResolve plainModuleSystem cachedLoaderState
          (some "node_modules/dojo/dojo.js")).1
        (some "node_modules/dojo/dojo.js")
      = (cachedLoaderState, LoaderVal.fn 7) := by
  have h := swapLoader_cached_idempotent plainModuleSystem cachedLoaderState
    "node_modules/dojo/dojo.js" (by decide)
  exact ⟨h.1, h.2.2.2.2⟩

/-! ## `swapLoader` configuration application
(`declarations.ts` lines 545–567) -/

/-- Own-key membership on a module-alias map modelled as an
insertion-ordered association list. -/
def jsOwnKey (k : String) : List (String × Nat) → Bool
  | [] => false
  | kv :: rest => kv.1 = k || jsOwnKey k rest

/-- The JS `key in userStarMap` test at line 557: true for an own key of
the wildcard map and also for every name the map object inherits from
`Object.prototype`. -/
def jsHasKey (k : String) (m : List (String × Nat)) : Bool :=
  jsOwnKey k m || objectPrototypeKeys.contains k

/-- JS property lookup on the association-list map. -/
def jsLookup (k : String) : List (String × Nat) → Option Nat
  | [] => none
  | kv :: rest => if kv.1 = k then some kv.2 else jsLookup k rest

/-- First-wins choice, the shape of a two-layer property lookup. -/
def jsOr : Option Nat → Option Nat → Option Nat
  | some v, _ => some v
  | none, o => o

/-- The loop at lines 556–560: `for...in` visits the default wildcard
map's own enumerable keys in insertion order (the inherited
`Object.prototype` names are not enumerable), and every key the `in`
test does not find on the user's wildcard map — as an own key or as an
inherited name — is copied into the user's map (JS assignment of a
fresh key appends in insertion order); user entries are left alone. -/
def mergeStarMap (user default : List (String × Nat)) :
    List (String × Nat) :=
  default.foldl (fun u kv => if jsHasKey kv.1 u then u else u ++ [kv]) user

/-- A loader options object, projected to what lines 545–567 touch: its
wildcard (`map['*']`) module-alias map, when present, and its remaining
configuration (opaque, never modified by the merge). -/
structure LoaderOpts where
  starMap : Option (List (String × Nat))
  rest : List (String × Nat)
  deriving DecidableEq, Repr

/-- Lines 545–567 of `declarations.ts`: the loader is configured first
with the pipeline's default loader options; then, if user
`loaderOptions` exist, their wildcard map — when both it and the
default wildcard map are present — is forward-merged with the default
entries the user did not set, and the loader is configured with the
(possibly updated) user options.  The result lists the configuration
objects in the order `setConfig` receives them. -/
def applyLoaderConfigs (defaults : LoaderOpts) (user : Option LoaderOpts) :
    List LoaderOpts :=
  match user with
  | none => [defaults]
  | some u =>
    match u.starMap, defaults.starMap with
    | some um, some dm => [defaults, { u with starMap := some (mergeStarMap um dm) }]
    | _, _ => [defaults, u]

theorem jsOwnKey_eq_isSome (k : String) (m : List (String × Nat)) :
    jsOwnKey k m = (jsLookup k m).isSome := by
  induction m with
  | nil => rfl
  | cons kv rest ih =>
    by_cases hk : kv.1 = k <;> simp [jsOwnKey, jsLookup, hk, ih]

theorem jsOr_none_right (o : Option Nat) : jsOr o none = o := by
  cases o <;> rfl

theorem jsOr_assoc (a b c : Option Nat) :
    jsOr (jsOr a b) c = jsOr a (jsOr b c) := by
  cases a <;> cases b <;> rfl

theorem jsLookup_append (k : String) (m₁ m₂ : List (String × Nat)) :
    jsLookup k (m₁ ++ m₂) = jsOr (jsLookup k m₁) (jsLookup k m₂) := by
  induction m₁ with
  | nil => rfl
  | cons kv rest ih =>
    by_cases hk : kv.1 = k <;> simp [jsLookup, jsOr, hk, ih]

theorem mergeStarMap_lookup (um dm : List (String × Nat)) (k : String)
    (hproto : objectPrototypeKeys.contains k = false) :
    jsLookup k (mergeStarMap um dm) = jsOr (jsLookup k um) (jsLookup k dm) := by
  induction dm generalizing um with
  | nil => simp [mergeStarMap, jsLookup, jsOr_none_right]
  | cons kv rest ih =>
    have hfold : mergeStarMap um (kv :: rest)
        = mergeStarMap (if jsHasKey kv.1 um then um else um ++ [kv]) rest := by
      simp [mergeStarMap]
    rw [hfold]
    by_cases hin : jsHasKey kv.1 um
    · rw [if_pos hin, ih]
      by_cases hk : kv.1 = k
      · subst hk
        have hown : jsOwnKey kv.1 um = true := by
          have h' := hin
          unfold jsHasKey at h'
          rw [hproto] at h'
          simpa using h'
        rw [jsOwnKey_eq_isSome] at hown
        match hm : jsLookup kv.1 um with
        | some v => simp [jsLookup, jsOr, hm]
        | none => rw [hm] at hown; simp at hown
      · simp [jsLookup, hk]
    · rw [if_neg hin, ih, jsLookup_append, jsOr_assoc]
      by_cases hk : kv.1 = k <;> simp [jsLookup, jsOr, hk]

/-- C4 counterexample: a default wildcard entry keyed `toString` is
never forward-merged — `'toString' in userStarMap` is true through the
prototype chain even on a user map that sets no alias at all — so the
wildcard map applied in the second step lacks an entry the user did
not set, and is not the union the claim describes. -/
theorem swapLoader_config_merge_inherited_key :
    applyLoaderConfigs ⟨some [("toString", 5)], []⟩ (some ⟨some [], []⟩)
      = [⟨some [("toString", 5)], []⟩, ⟨some [], []⟩] ∧
    jsLookup "toString" (mergeStarMap [] [("toString", 5)]) = none ∧
    jsOr (jsLookup "toString" []) (jsLookup "toString" [("toString", 5)])
      = some 5 := by
  decide

/-- C4 (amended): `swapLoader` configures the loader first with the
default loader options and then with the user options; when both
wildcard module-alias maps exist, the wildcard map applied in the
second step resolves every key that does not name an inherited
`Object.prototype` property to the user's entry when the user set it
and to the default entry otherwise (user entries take precedence,
default entries fill the gaps).  A default entry whose key names an
inherited property (e.g. `toString`) is never copied, because the JS
`in` test finds the name on every user map through the prototype
chain. -/
theorem swapLoader_config_merge (defaults u : LoaderOpts)
    (um dm : List (String × Nat))
    (hu : u.starMap = some um) (hd : defaults.starMap = some dm) :
    applyLoaderConfigs defaults (some u)
      = [defaults, { u with starMap := some (mergeStarMap um dm) }] ∧
    ∀ k, objectPrototypeKeys.contains k = false →
      jsLookup k (mergeStarMap um dm)
        = jsOr (jsLookup k um) (jsLookup k dm) := by
  constructor
  · simp [applyLoaderConfigs, hu, hd]
  · intro k hk
    exact mergeStarMap_lookup um dm k hk

/-- C4 witness: default wildcard aliases `a ↦ 1, b ↦ 2` with user
wildcard aliases `a ↦ 3` are applied as defaults first, then the merged
user map resolving `a ↦ 3` and `b ↦ 2`. -/
theorem swapLoader_config_merge_witness :
    applyLoaderConfigs ⟨some [("a", 1), ("b", 2)], []⟩
        (some ⟨some [("a", 3)], []⟩)
      = [⟨some [("a", 1), ("b", 2)], []⟩, ⟨some [("a", 3), ("b", 2)], []⟩] ∧
    jsLookup "a" (mergeStarMap [("a", 3)] [("a", 1), ("b", 2)]) = some 3 ∧
    jsLookup "b" (mergeStarMap [("a", 3)] [("a", 1), ("b", 2)]) = some 2 := by
  have h := swapLoader_config_merge ⟨some [("a", 1), ("b", 2)], []⟩
    ⟨some [("a", 3)], []⟩ [("a", 3)] [("a", 1), ("b", 2)] rfl rfl
  refine ⟨?_, ?_, ?_⟩
  · exact h.1.trans (by decide)
  · exact (h.2 "a" (by decide)).trans (by decide)
  · exact (h.2 "b" (by decide)).trans (by decide)

end Intern
